import Mathlib

/-!
Verification development for the OFAC sanctions lookup/search service
(`ofac_api.py`, `main.py`, `ofac_mcp_sse.py`).

The Python source reads a SQLite database through parameterized SQL queries.
This file gives a shallow embedding: the database is a record of tables
(lists of rows), each SQL query is translated into list operations mirroring
its relational semantics (inner joins as nested flatMaps over filters, LEFT
JOIN as a flatMap that yields a single NULL row when no partner matches,
GROUP_CONCAT as concatenation of the non-NULL cells of the group, ORDER BY
as a sort by the SQLite BINARY collation, LIMIT as List.take), and each
Flask route handler is a function from its raw query-string parameters to a
response value.

Modelling conventions, noted where they matter:
* SQLite's BINARY collation (memcmp of UTF-8 bytes) is modelled by
  lexicographic comparison of Unicode code points (`strLe`), which agrees
  with byte order on UTF-8.
* `lower()` is modelled ASCII-only (`lowerStr`); the relevant data and all
  claims are ASCII.  The search connection overrides SQLite's `lower` with
  Python's `lambda s: s.lower() if s else None`, which maps the empty string
  to NULL; `optLower`/`likeTest` reproduce that.
* `LIKE '%q%'` is modelled as case-insensitive substring containment; SQL
  wildcard characters inside `q` itself are not given wildcard meaning (no
  claim depends on that corner).
* `str.strip()` is modelled with Python's full whitespace table
  (`pyWhitespace`), and `int()` with its whitespace stripping, optional
  sign and PEP 515 underscore grouping over ASCII digits; the non-ASCII
  Unicode decimal digits `int()` also accepts are outside the model, and
  the one theorem that needs `int()` exactly states that restriction as a
  hypothesis.
* Where SQLite leaves a choice unspecified (value of a bare column in a
  GROUP BY row, GROUP_CONCAT order, ORDER BY tie order, iteration order of
  a Python set in an error message) the embedding fixes one concrete choice;
  no claim depends on those choices.
-/

/-! ## String utilities (models of Python/SQLite string primitives) -/

/-- ASCII lower-casing of one character (codes 65–90 map to 97–122). -/
def lowerChar (c : Char) : Char :=
  if 65 ≤ c.toNat ∧ c.toNat ≤ 90 then Char.ofNat (c.toNat + 32) else c

/-- ASCII `lower()` on strings. -/
def lowerStr (s : String) : String := ⟨s.data.map lowerChar⟩

/-- Model of SQL `REPLACE(x, '.', '')`: drop every dot. -/
def stripDots (s : String) : String := ⟨s.data.filter (fun c => c ≠ '.')⟩

/-- Model of `REPLACE(LOWER(x), '.', '')`, the alias-type normalisation used
by both the resolver and the search composer. -/
def normalizeTypeCd (s : String) : String := stripDots (lowerStr s)

/-- Python's whitespace predicate (the table behind `str.strip()` and the
stripping done by `int()`): U+0009–U+000D, U+001C–U+001F, space, U+0085,
U+00A0, U+1680, U+2000–U+200A, U+2028, U+2029, U+202F, U+205F, U+3000. -/
def pyWhitespace (c : Char) : Bool :=
  (decide (9 ≤ c.toNat) && decide (c.toNat ≤ 13)) ||
  (decide (28 ≤ c.toNat) && decide (c.toNat ≤ 32)) ||
  c.toNat == 133 || c.toNat == 160 || c.toNat == 5760 ||
  (decide (8192 ≤ c.toNat) && decide (c.toNat ≤ 8202)) ||
  c.toNat == 8232 || c.toNat == 8233 || c.toNat == 8239 ||
  c.toNat == 8287 || c.toNat == 12288

/-- Model of Python `str.strip()`: drop leading and trailing characters of
the whitespace table. -/
def trimStr (s : String) : String :=
  ⟨((s.data.dropWhile pyWhitespace).reverse.dropWhile pyWhitespace).reverse⟩

/-- Strict lexicographic order on code-point sequences; on UTF-8 data this
is exactly SQLite's BINARY collation (memcmp) used by `ORDER BY`. -/
def strLtChars : List Char → List Char → Bool
  | [], [] => false
  | [], _ :: _ => true
  | _ :: _, [] => false
  | a :: as, b :: bs =>
    if a.toNat < b.toNat then true
    else if b.toNat < a.toNat then false
    else strLtChars as bs

/-- Reflexive closure of `strLtChars`, as a comparison on strings. -/
def strLe (s t : String) : Bool := !(strLtChars t.data s.data)

/-- Substring containment (the semantics of `LIKE '%q%'` on non-NULL text). -/
def strContainsSub (hay needle : String) : Bool :=
  hay.data.tails.any (fun t => needle.data.isPrefixOf t)

/-- Decimal digit characters, fuel-based so that it reduces definitionally. -/
def natToStrAux : Nat → Nat → List Char
  | 0, _ => []
  | fuel+1, n =>
    if n < 10 then [Char.ofNat (48 + n)]
    else natToStrAux fuel (n / 10) ++ [Char.ofNat (48 + n % 10)]

/-- Decimal rendering of a natural number (Python's str() on an int). -/
def natToStr (n : Nat) : String := ⟨natToStrAux (n+1) n⟩

/-- True iff the string is non-empty and all ASCII digits; model of
Python `str.isdigit()` restricted to the ASCII digits the claims use. -/
def isPyDigits (s : String) : Bool :=
  !s.data.isEmpty && s.data.all (fun c => decide (48 ≤ c.toNat) && decide (c.toNat ≤ 57))

/-- Numeric value of an ASCII digit string (Python `int(s)` for digits). -/
def natOfDigits (s : String) : Nat :=
  s.data.foldl (fun acc c => acc * 10 + (c.toNat - 48)) 0

/-- ASCII decimal digit. -/
def isAsciiDigit (c : Char) : Bool :=
  decide (48 ≤ c.toNat) && decide (c.toNat ≤ 57)

/-- Value of a digit list. -/
def digitsVal (ds : List Char) : Nat :=
  ds.foldl (fun acc c => acc * 10 + (c.toNat - 48)) 0

/-- Tail of an underscore-grouped digit run (PEP 515): an underscore must
be single and followed by another digit. -/
def digitsGroupedRest : List Char → Bool
  | [] => true
  | '_' :: [] => false
  | '_' :: c :: rest => isAsciiDigit c && digitsGroupedRest rest
  | c :: rest => isAsciiDigit c && digitsGroupedRest rest

/-- Non-empty run of ASCII decimal digits with optional single underscores
strictly between digits, as `int()` accepts (PEP 515 grouping). -/
def digitsGrouped : List Char → Bool
  | [] => false
  | c :: rest => isAsciiDigit c && digitsGroupedRest rest

/-- Model of Python `int(s)`: surrounding whitespace (the `pyWhitespace`
table, which `int` shares with `str.strip`) is dropped by `trimStr`, then
an optional sign and a non-empty underscore-grouped digit run; anything
else raises `ValueError`, modelled as `none`.  `int` additionally accepts
the non-ASCII Unicode decimal digits (category Nd), which are outside this
model; the theorem about the route's limit validation therefore restricts
that parameter to ASCII text. -/
def parsePyInt (s : String) : Option Int :=
  match (trimStr s).data with
  | '+' :: ds =>
    if digitsGrouped ds then some (digitsVal (ds.filter (fun c => c ≠ '_')) : Int)
    else none
  | '-' :: ds =>
    if digitsGrouped ds then some (-(digitsVal (ds.filter (fun c => c ≠ '_')) : Int))
    else none
  | ds =>
    if digitsGrouped ds then some (digitsVal (ds.filter (fun c => c ≠ '_')) : Int)
    else none

/-- Model of Python `x or y` on optional strings: the empty string is falsy. -/
def pyOr (x y : Option String) : Option String :=
  match x with
  | some s => if s = "" then y else some s
  | none => y

/-- Model of Python truthiness of an optional string (`if country:`). -/
def pyTruthy : Option String → Bool
  | none => false
  | some s => s != ""

/-- The Python `lower` UDF registered on the search connection:
`lambda s: s.lower() if s else None` — NULL and the empty string both
become NULL. -/
def optLower : Option String → Option String
  | none => none
  | some s => if s = "" then none else some (lowerStr s)

/-- SQLite `GROUP_CONCAT(·, sep)` over the non-NULL values of a group:
NULL for an empty group, otherwise the values joined by `sep`. -/
def groupConcat (sep : String) : List String → Option String
  | [] => none
  | v :: vs => some (vs.foldl (fun acc x => acc ++ sep ++ x) v)

/-- GROUP_CONCAT applied to a column of nullable cells: NULL cells are
skipped. -/
def concatCells (cells : List (Option String)) : Option String :=
  groupConcat "; " (cells.filterMap id)

/-! ## Data model (§3 of the spec; the tables read by the SQL queries) -/

/-- Row of `ofac_sanctioned_party`. -/
structure PartyRow where
  party_id : Nat
  party_type_cd : String
  remarks : Option String
deriving DecidableEq

/-- Row of `ofac_party_name`. -/
structure NameRow where
  party_id : Nat
  name_text : String
  name_type_cd : String
  is_primary_flg : Nat
deriving DecidableEq

/-- Row of `ofac_party_list_link`. -/
structure ListLinkRow where
  party_id : Nat
  list_cd : String
deriving DecidableEq

/-- Row of `ofac_party_program_link`. -/
structure ProgramLinkRow where
  party_id : Nat
  program_cd : String
deriving DecidableEq

/-- Row of `ofac_party_attribute`. -/
structure AttributeRow where
  party_id : Nat
  attribute_type_cd : String
  attribute_value : String
deriving DecidableEq

/-- Row of `ofac_party_address`; nullable columns are Options. -/
structure AddressRow where
  party_id : Nat
  address_line : Option String
  city : Option String
  postal_code : Option String
  country_cd : Option String
deriving DecidableEq

/-- Row of `ofac_code_master`. -/
structure CodeRow where
  code_id : String
  code_value : String
deriving DecidableEq

/-- The backing store: the `ofac_demo.db` file (which may be absent —
`dbExists` models `DB_FILE.exists()`) together with its tables. -/
structure Database where
  dbExists : Bool
  party : List PartyRow
  partyName : List NameRow
  listLink : List ListLinkRow
  programLink : List ProgramLinkRow
  partyAttribute : List AttributeRow
  address : List AddressRow
  codeMaster : List CodeRow
deriving DecidableEq

/-! ## Error messages fixed by the source -/

/-- Message of the storage-unavailable error (`DB_FILE = ofac_demo.db`). -/
def dbMissingMsg : String := "DB ファイル ofac_demo.db が見つかりません。"

/-- Message of the invalid-scope ValueError.  The source joins a Python set,
whose iteration order is unspecified; one order is fixed here (no claim
inspects this text). -/
def scopeErrMsg : String := "scope は all, name, alias, address のいずれかで指定してください"

/-- Message of the missing/short query 400 response. -/
def searchQMsg : String := "q または name パラメータを2文字以上で指定してください"

/-- Message of the unparseable-limit 400 response. -/
def limitMsg : String := "limit パラメータは整数で指定してください"

/-- Message of the missing/non-numeric partyId 400 response. -/
def partyIdMsg : String := "partyId を数値で指定してください"

/-- Message of the party-not-found 404 response. -/
def notFoundMsg (pid : Nat) : String :=
  "party_id=" ++ natToStr pid ++ " のデータが見つかりません"

/-! ## Party detail resolver (`get_party_data` in ofac_api.py; the FastAPI
handler `get_party` in main.py runs the same four SQL queries) -/

/-- Rows of `ofac_party_name` for the party with `is_primary_flg = 1` and
`name_type_cd = 'FORMAL'` — the canonical-name join condition. -/
def canonicalNames (db : Database) (pid : Nat) : List NameRow :=
  db.partyName.filter
    (fun n => n.party_id == pid && n.is_primary_flg == 1 && n.name_type_cd == "FORMAL")

/-- `JOIN ofac_party_list_link ll JOIN ofac_code_master cm_list`: the list
code values reachable from the party (inner joins — rows that do not
resolve in the code master contribute nothing). -/
def listValues (db : Database) (pid : Nat) : List String :=
  (db.listLink.filter (fun ll => ll.party_id == pid)).flatMap
    (fun ll => (db.codeMaster.filter (fun c => c.code_id == ll.list_cd)).map
      (fun c => c.code_value))

/-- `LEFT JOIN ofac_code_master cm_prog` for one program link: the code
values, or one NULL cell when the code does not resolve. -/
def progCellsOf (db : Database) (pl : ProgramLinkRow) : List (Option String) :=
  if (db.codeMaster.filter (fun c => c.code_id == pl.program_cd)).isEmpty then [none]
  else (db.codeMaster.filter (fun c => c.code_id == pl.program_cd)).map
    (fun c => some c.code_value)

/-- `LEFT JOIN ofac_party_program_link pl LEFT JOIN ofac_code_master
cm_prog`: the column of `cm_prog.code_value` cells contributed per base
row.  A missing partner on either left join yields a single NULL cell, so
the result is never empty. -/
def programCells (db : Database) (pid : Nat) : List (Option String) :=
  if (db.programLink.filter (fun pl => pl.party_id == pid)).isEmpty then [none]
  else (db.programLink.filter (fun pl => pl.party_id == pid)).flatMap (progCellsOf db)

/-- The party's resolving program codes: program links whose code has a
code-master row (the values GROUP_CONCAT actually sees). -/
def programCodes (db : Database) (pid : Nat) : List String :=
  (db.programLink.filter (fun pl => pl.party_id == pid)).flatMap
    (fun pl => (db.codeMaster.filter (fun c => c.code_id == pl.program_cd)).map
      (fun c => c.code_value))

/-- One joined row of the details query (before GROUP BY). -/
structure DetailJoinRow where
  p : PartyRow
  n : NameRow
  listValue : String
  progCell : Option String
deriving DecidableEq

/-- Joined row set of the details query: party row × canonical name rows ×
resolving list values × program cells.  (`p.party_id = n.party_id` holds
because both filters pin the same identifier.) -/
def detailsJoin (db : Database) (pid : Nat) : List DetailJoinRow :=
  (db.party.filter (fun p => p.party_id == pid)).flatMap fun p =>
    (canonicalNames db pid).flatMap fun n =>
      (listValues db pid).flatMap fun lv =>
        (programCells db pid).map fun c => ⟨p, n, lv, c⟩

/-- Identification record (`Type`, `ID / Information` columns). -/
structure IdentRec where
  typeCd : String
  value : String
deriving DecidableEq

/-- ORDER BY attribute_type_cd, attribute_value (BINARY collation). -/
def identRel : AttributeRow → AttributeRow → Prop := fun a b =>
  (strLtChars a.attribute_type_cd.data b.attribute_type_cd.data = true) ∨
  (a.attribute_type_cd = b.attribute_type_cd ∧
    strLe a.attribute_value b.attribute_value = true)

instance : DecidableRel identRel := fun a b =>
  inferInstanceAs (Decidable
    ((strLtChars a.attribute_type_cd.data b.attribute_type_cd.data = true) ∨
     (a.attribute_type_cd = b.attribute_type_cd ∧
       strLe a.attribute_value b.attribute_value = true)))

/-- Identifications query: attributes of the party restricted to the fixed
allow-list, ordered by (type, value). -/
def identRecs (db : Database) (pid : Nat) : List IdentRec :=
  (List.insertionSort identRel
    (db.partyAttribute.filter (fun a => a.party_id == pid &&
      (a.attribute_type_cd == "Website" ||
       a.attribute_type_cd == "Additional Sanctions Information -")))).map
    (fun a => ⟨a.attribute_type_cd, a.attribute_value⟩)

/-- Alias record (`Type`, `Category`, `Name` columns). -/
structure AliasRec where
  typeCd : String
  category : String
  aliasName : String
deriving DecidableEq

/-- WHERE clause of the alias query: rows of the party whose type code,
lower-cased and with dots stripped, equals "aka". -/
def akaRows (db : Database) (pid : Nat) : List NameRow :=
  db.partyName.filter
    (fun n => n.party_id == pid && normalizeTypeCd n.name_type_cd == "aka")

/-- ORDER BY name_text for name rows. -/
def nameTextRel : NameRow → NameRow → Prop := fun a b =>
  strLe a.name_text b.name_text = true

instance : DecidableRel nameTextRel := fun a b =>
  inferInstanceAs (Decidable (strLe a.name_text b.name_text = true))

/-- Alias query: aka-typed name rows ordered by name text, each surfaced
with the fixed literals 'a.k.a.' and 'weak'. -/
def aliasRecs (db : Database) (pid : Nat) : List AliasRec :=
  (List.insertionSort nameTextRel (akaRows db pid)).map
    (fun n => ⟨"a.k.a.", "weak", n.name_text⟩)

/-- Address record; `State / Province` is the fixed empty string. -/
structure AddrRec where
  address : Option String
  city : Option String
  stateProvince : String
  postalCode : Option String
  country : Option String
deriving DecidableEq

/-- Code-master rows joined to an address row by country code (`ON
ad.country_cd = cm.code_id`; a NULL code joins nothing). -/
def countryRows (db : Database) (ad : AddressRow) : List CodeRow :=
  match ad.country_cd with
  | none => []
  | some cc => db.codeMaster.filter (fun c => c.code_id == cc)

/-- Address query: addresses of the party, country translated through a
LEFT JOIN on the code master (NULL when the code is NULL or unknown). -/
def addrRecs (db : Database) (pid : Nat) : List AddrRec :=
  (db.address.filter (fun ad => ad.party_id == pid)).flatMap fun ad =>
    if (countryRows db ad).isEmpty then
      [⟨ad.address_line, ad.city, "", ad.postal_code, none⟩]
    else (countryRows db ad).map
      (fun c => ⟨ad.address_line, ad.city, "", ad.postal_code, some c.code_value⟩)

/-- The structured record built by the resolver (details row + the three
sub-lists). -/
structure PartyData where
  typeCd : String
  entityName : String
  listValue : String
  program : Option String
  remarks : String
  identifications : List IdentRec
  aliases : List AliasRec
  addresses : List AddrRec
deriving DecidableEq

/-- Outcome of `get_party_data`: the error dict for a missing DB file,
`None` for an empty details result, or the data dict. -/
inductive PartyResult where
  | storageError (msg : String)
  | notFound
  | found (d : PartyData)
deriving DecidableEq

/-- `get_party_data(party_id)` of ofac_api.py.  The DB-file check comes
first; then the details query decides existence; the bare columns of the
single GROUP BY group are taken from the first joined row (SQLite leaves
the choice unspecified); `Program` is the GROUP_CONCAT over all joined
rows; `Remarks` is COALESCE(remarks, ''). -/
def get_party_data (db : Database) (party_id : Nat) : PartyResult :=
  if !db.dbExists then .storageError dbMissingMsg
  else
    match detailsJoin db party_id with
    | [] => .notFound
    | r :: rs =>
      .found {
        typeCd := r.p.party_type_cd
        entityName := r.n.name_text
        listValue := r.listValue
        program := concatCells ((r :: rs).map (fun x => x.progCell))
        remarks := r.p.remarks.getD ""
        identifications := identRecs db party_id
        aliases := aliasRecs db party_id
        addresses := addrRecs db party_id }

/-- JSON response of the `/ofacParty` route, by status code. -/
inductive GetResponse where
  | badRequest (msg : String)
  | notFoundResp (msg : String)
  | serverError (msg : String)
  | ok (d : PartyData)
deriving DecidableEq

/-- The `/ofacParty` Flask handler: reject a missing or non-digit
`partyId` with 400; map the resolver's error dict to 500, `None` to 404,
and a data dict to the 200 success envelope. -/
def ofac_party (db : Database) (partyIdParam : Option String) : GetResponse :=
  match partyIdParam with
  | none => .badRequest partyIdMsg
  | some s =>
    if isPyDigits s then
      match get_party_data db (natOfDigits s) with
      | .storageError m => .serverError m
      | .notFound => .notFoundResp (notFoundMsg (natOfDigits s))
      | .found d => .ok d
    else .badRequest partyIdMsg

/-! ## Search composer (`search_party_advanced`) -/

/-- One labelled candidate of the `union_search` CTE. -/
structure Candidate where
  party_id : Nat
  match_field : String
  match_value : String
deriving DecidableEq

/-- Primary FORMAL name rows (source of the 'name' branch and of the
canonical-name join `pn`). -/
def primaryFormalRows (db : Database) : List NameRow :=
  db.partyName.filter (fun n => n.is_primary_flg == 1 && n.name_type_cd == "FORMAL")

/-- The 'name' branch of the union. -/
def nameCandidates (db : Database) : List Candidate :=
  (primaryFormalRows db).map (fun n => ⟨n.party_id, "name", n.name_text⟩)

/-- The 'alias' branch of the union. -/
def aliasCandidates (db : Database) : List Candidate :=
  (db.partyName.filter (fun n => normalizeTypeCd n.name_type_cd == "aka")).map
    (fun n => ⟨n.party_id, "alias", n.name_text⟩)

/-- The 'address' branch of the union: COALESCE'd line, city and country
code joined by single spaces. -/
def addressCandidates (db : Database) : List Candidate :=
  db.address.map (fun ad =>
    ⟨ad.party_id, "address",
      (ad.address_line.getD "") ++ " " ++ (ad.city.getD "") ++ " " ++ (ad.country_cd.getD "")⟩)

/-- The `union_search` CTE (UNION ALL of the three branches). -/
def unionSearch (db : Database) : List Candidate :=
  nameCandidates db ++ aliasCandidates db ++ addressCandidates db

/-- `LEFT JOIN ofac_party_address ad LEFT JOIN ofac_code_master
cm_country` for one address row: its translated country values, or a NULL
country when the code does not resolve. -/
def addrCellsOf (db : Database) (ad : AddressRow) :
    List (Option (AddressRow × Option String)) :=
  if (countryRows db ad).isEmpty then [some (ad, none)]
  else (countryRows db ad).map (fun c => some (ad, some c.code_value))

/-- LEFT JOIN of the address rows of one party, with their translated
country values; a party without addresses contributes one NULL cell. -/
def addrCells (db : Database) (pid : Nat) : List (Option (AddressRow × Option String)) :=
  if (db.address.filter (fun ad => ad.party_id == pid)).isEmpty then [none]
  else (db.address.filter (fun ad => ad.party_id == pid)).flatMap (addrCellsOf db)

/-- One joined row of the main search query (before WHERE/GROUP BY). -/
structure JoinedRow where
  cand : Candidate
  party : PartyRow
  pn : NameRow
  listValue : String
  progCell : Option String
  addr : Option (AddressRow × Option String)
deriving DecidableEq

/-- Join row set contributed by one candidate: `JOIN p JOIN pn (primary,
FORMAL) JOIN ll JOIN cm_list LEFT JOIN pl/cm_prog LEFT JOIN ad/cm_country`. -/
def candRows (db : Database) (s : Candidate) : List JoinedRow :=
  (db.party.filter (fun p => p.party_id == s.party_id)).flatMap fun p =>
    (canonicalNames db p.party_id).flatMap fun pn =>
      (listValues db p.party_id).flatMap fun lv =>
        (programCells db p.party_id).flatMap fun c =>
          (addrCells db p.party_id).map fun ad => ⟨s, p, pn, lv, c, ad⟩

/-- The full joined row set of the search query. -/
def joinedRows (db : Database) : List JoinedRow :=
  (unionSearch db).flatMap (candRows db)

/-- `lower(s.match_value) LIKE lower('%q%')` with the connection's Python
`lower`: an empty match value lowers to NULL and fails the LIKE; otherwise
case-insensitive containment of `q`. -/
def likeTest (v q : String) : Bool :=
  if v = "" then false else strContainsSub (lowerStr v) (lowerStr q)

/-- Country clause (only appended when the parameter is truthy):
`lower(ad.country_cd) = lower(?) OR lower(cm_country.code_value) =
lower(?)`; NULL comparisons are not satisfied. -/
def countryCond (country : Option String) (r : JoinedRow) : Bool :=
  match country with
  | none => false
  | some c =>
    match r.addr with
    | none => false
    | some (ad, cmv) =>
      (optLower ad.country_cd == some (lowerStr c)) ||
      (optLower cmv == some (lowerStr c))

/-- City clause (only appended when the parameter is truthy):
`lower(ad.city) = lower(?)`. -/
def cityCond (city : Option String) (r : JoinedRow) : Bool :=
  match city with
  | none => false
  | some c =>
    match r.addr with
    | none => false
    | some (ad, _) => optLower ad.city == some (lowerStr c)

/-- The dynamically composed WHERE clause: the LIKE filter always, the
match-field filter unless scope is "all", and the country/city filters when
those parameters are truthy. -/
def whereClause (q scope : String) (country city : Option String) (r : JoinedRow) : Bool :=
  likeTest r.cand.match_value q &&
  (scope == "all" || r.cand.match_field == scope) &&
  (!pyTruthy country || countryCond country r) &&
  (!pyTruthy city || cityCond city r)

/-- The GROUP BY key: `p.party_id, pn.name_text, p.party_type_cd,
cm_list.code_value, s.match_field, s.match_value`. -/
structure GroupKey where
  party_id : Nat
  name_text : String
  party_type_cd : String
  listValue : String
  match_field : String
  match_value : String
deriving DecidableEq

/-- Key of a joined row. -/
def rowKey (r : JoinedRow) : GroupKey :=
  ⟨r.party.party_id, r.pn.name_text, r.party.party_type_cd, r.listValue,
    r.cand.match_field, r.cand.match_value⟩

/-- Joined rows surviving the WHERE clause. -/
def filteredRows (db : Database) (q scope : String) (country city : Option String) :
    List JoinedRow :=
  (joinedRows db).filter (whereClause q scope country city)

/-- One output row of the search query. -/
structure SearchHit where
  party_id : Nat
  entityName : String
  typeCd : String
  listValue : String
  program : Option String
  matchField : String
  matchValue : String
deriving DecidableEq

/-- Deduplication keeping first occurrences (`SELECT DISTINCT`; also used
to enumerate the GROUP BY groups in first-appearance order). -/
def dedupAux [DecidableEq α] : List α → List α → List α
  | _, [] => []
  | seen, x :: xs =>
    if x ∈ seen then dedupAux seen xs else x :: dedupAux (x :: seen) xs

/-- Deduplicate a list, keeping the first occurrence of each value. -/
def dedupFirst [DecidableEq α] (l : List α) : List α := dedupAux [] l

/-- Output row assembled from a group key and the group's GROUP_CONCAT. -/
def hitOfKey (k : GroupKey) (prog : Option String) : SearchHit :=
  ⟨k.party_id, k.name_text, k.party_type_cd, k.listValue, prog,
    k.match_field, k.match_value⟩

/-- GROUP BY evaluation: one output row per distinct key, with `Program`
the GROUP_CONCAT over the group's program cells. -/
def groupedHits (db : Database) (q scope : String) (country city : Option String) :
    List SearchHit :=
  (dedupFirst ((filteredRows db q scope country city).map rowKey)).map fun k =>
    hitOfKey k (concatCells
      (((filteredRows db q scope country city).filter
          (fun r => decide (rowKey r = k))).map (fun r => r.progCell)))

/-- ORDER BY pn.name_text (the hit's Entity Name), BINARY collation. -/
def hitRel : SearchHit → SearchHit → Prop := fun a b =>
  strLe a.entityName b.entityName = true

instance : DecidableRel hitRel := fun a b =>
  inferInstanceAs (Decidable (strLe a.entityName b.entityName = true))

/-- Result rows of the search SQL: grouped, DISTINCT, ordered by entity
name, truncated to the LIMIT. -/
def searchHits (db : Database) (q scope : String) (country city : Option String)
    (limN : Nat) : List SearchHit :=
  (List.insertionSort hitRel (dedupFirst (groupedHits db q scope country city))).take limN

/-- The scope whitelist (a Python set in the source). -/
def ALLOWED_SCOPES : List String := ["all", "name", "alias", "address"]

/-- Outcome of `search_party_advanced`: the error dict for a missing DB
file, the raised ValueError for a bad scope, or the hit list. -/
inductive SearchResult where
  | storageError (msg : String)
  | valueError (msg : String)
  | ok (hits : List SearchHit)
deriving DecidableEq

/-- `search_party_advanced` of ofac_api.py: DB-file check first, then
scope lower-casing and validation, then the clamp of limit into [1,1000],
then the composed query. -/
def search_party_advanced (db : Database) (q scope : String)
    (country city : Option String) (limit : Int) (fuzzy : Bool) : SearchResult :=
  if !db.dbExists then .storageError dbMissingMsg
  else if lowerStr scope ∉ ALLOWED_SCOPES then .valueError scopeErrMsg
  else .ok (searchHits db q (lowerStr scope) country city
    (max 1 (min limit 1000)).toNat)

/-- Raw query-string parameters of `/ofacParty/search` (absent vs present). -/
structure SearchArgs where
  q : Option String
  name : Option String
  scope : Option String
  country : Option String
  city : Option String
  limit : Option String
  fuzzy : Option String
deriving DecidableEq

/-- The effective scope string as the route computes it. -/
def scopeEff (a : SearchArgs) : String :=
  lowerStr (match pyOr a.scope (some "all") with
    | some s => s
    | none => "all")

/-- JSON response of the `/ofacParty/search` route, by status code. -/
inductive SearchResponse where
  | badRequest (msg : String)
  | serverError (msg : String)
  | ok (hits : List SearchHit)
deriving DecidableEq

/-- The `/ofacParty/search` Flask handler: `q` or legacy `name` required
(trimmed length ≥ 2); scope defaults to "all" and is lower-cased; `limit`
defaults to 100 and must parse as an integer; fuzzy parses to a bool; a
ValueError from the composer becomes 400, the error dict 500, and the hit
list the 200 success envelope. -/
def search_party (db : Database) (a : SearchArgs) : SearchResponse :=
  match pyOr a.q a.name with
  | none => .badRequest searchQMsg
  | some qp =>
    if qp = "" ∨ (trimStr qp).length < 2 then .badRequest searchQMsg
    else
      match (match a.limit with
        | none => some (100 : Int)
        | some ls => parsePyInt ls) with
      | none => .badRequest limitMsg
      | some limit_param =>
        match search_party_advanced db (trimStr qp) (scopeEff a) a.country a.city
            limit_param (lowerStr (a.fuzzy.getD "false") == "true") with
        | .valueError m => .badRequest m
        | .storageError m => .serverError m
        | .ok hits => .ok hits

/-! ## Route-level validity predicates (used to state the error-handling
claims about `/ofacParty/search`) -/

/-- The effective query parameter passes the route's check: `q or name` is
truthy and its trimmed length is at least 2. -/
def qok (a : SearchArgs) : Bool :=
  match pyOr a.q a.name with
  | none => false
  | some s => !(s == "") && decide (2 ≤ (trimStr s).length)

/-- The limit parameter parses (it defaults to 100 when absent). -/
def limOk (a : SearchArgs) : Bool :=
  match a.limit with
  | none => true
  | some ls => (parsePyInt ls).isSome

/-- The effective scope is one of the four allowed values (the composer
lower-cases its argument once more before testing). -/
def scopeOk (a : SearchArgs) : Bool :=
  decide (lowerStr (scopeEff a) ∈ ALLOWED_SCOPES)

/-- Every character of the string is ASCII. -/
def asciiOnly (s : String) : Bool := s.data.all (fun c => decide (c.toNat ≤ 127))

/-- The limit parameter, when present, is ASCII text (the domain on which
`parsePyInt` coincides with Python's `int`; `int` additionally accepts
non-ASCII Unicode decimal digits, which the model leaves out). -/
def limitAscii (a : SearchArgs) : Bool :=
  match a.limit with
  | none => true
  | some ls => asciiOnly ls

/-! ## Concrete fixtures (small databases used by witnesses and
counterexamples; table layout: dbExists, party, partyName, listLink,
programLink, partyAttribute, address, codeMaster) -/

/-- C1 counterexample database: party 1 has a party row and a canonical
(primary, FORMAL) name row but no list-link row. -/
def c1cdb : Database :=
  ⟨true, [⟨1, "Entity", none⟩], [⟨1, "Foo Corp", "FORMAL", 1⟩], [], [], [], [], []⟩

/-- C1 witness database: party 1 has a party row, a canonical name row and
a resolving list link. -/
def c1wdb : Database :=
  ⟨true, [⟨1, "Entity", none⟩], [⟨1, "Foo Corp", "FORMAL", 1⟩],
   [⟨1, "L1"⟩], [], [], [], [⟨"L1", "SDN"⟩]⟩

/-- C2 database: the only text containing "corp" is an alias of party 1. -/
def c2db : Database :=
  ⟨true, [⟨1, "Entity", none⟩],
   [⟨1, "Alpha", "FORMAL", 1⟩, ⟨1, "Beta Corp", "a.k.a.", 0⟩],
   [⟨1, "L1"⟩], [], [], [], [⟨"L1", "SDN"⟩]⟩

/-- C2 request: legacy `name=corp`, no scope given. -/
def c2argsLegacy : SearchArgs := ⟨none, some "corp", none, none, none, none, none⟩

/-- C2 contrast request: same query with an explicit `scope=name`. -/
def c2argsScoped : SearchArgs := ⟨none, some "corp", some "name", none, none, none, none⟩

/-- C3 witness database (present but empty). -/
def c3db : Database := ⟨true, [], [], [], [], [], [], []⟩

/-- C4 counterexample database (present but empty). -/
def c4db : Database := ⟨true, [], [], [], [], [], [], []⟩

/-- C5 witness database (present but empty, so id 999999 has no record). -/
def c5db : Database := ⟨true, [], [], [], [], [], [], []⟩

/-- C6 witness database: party 1 with an alias containing "co". -/
def c6db : Database :=
  ⟨true, [⟨1, "Entity", none⟩],
   [⟨1, "Alpha", "FORMAL", 1⟩, ⟨1, "Beta Corp", "a.k.a.", 0⟩],
   [⟨1, "L1"⟩], [], [], [], [⟨"L1", "SDN"⟩]⟩

/-- Hits of the C6 witness search call (scope "alias"). -/
def c6hits : List SearchHit :=
  match search_party_advanced c6db "co" "alias" none none 100 false with
  | .ok hs => hs
  | _ => []

/-- C7 witness database: party 1 with two aka-typed name rows (one spelled
"AKA", one "a.k.a.") listed out of alphabetical order. -/
def c7db : Database :=
  ⟨true, [⟨1, "Entity", none⟩],
   [⟨1, "Foo", "FORMAL", 1⟩, ⟨1, "Zulu", "AKA", 0⟩, ⟨1, "Echo", "a.k.a.", 0⟩],
   [⟨1, "L1"⟩], [], [], [], [⟨"L1", "SDN"⟩]⟩

/-- Detail record resolved for the C7 witness. -/
def c7detail : PartyData :=
  match get_party_data c7db 1 with
  | .found d => d
  | _ => ⟨"", "", "", none, "", [], [], []⟩

/-- C8 counterexample database: party 1 with two resolving list links and
one resolving program link ("IRAN"). -/
def c8db : Database :=
  ⟨true, [⟨1, "Entity", none⟩], [⟨1, "Foo", "FORMAL", 1⟩],
   [⟨1, "L1"⟩, ⟨1, "L2"⟩], [⟨1, "P1"⟩], [], [],
   [⟨"L1", "SDN"⟩, ⟨"L2", "NS-PLC"⟩, ⟨"P1", "IRAN"⟩]⟩

/-- Detail record resolved for the C8 counterexample. -/
def c8detail : PartyData :=
  match get_party_data c8db 1 with
  | .found d => d
  | _ => ⟨"", "", "", none, "", [], [], []⟩

/-- C8 witness database: party 1 with one list link and two resolving
program links. -/
def c8wdb : Database :=
  ⟨true, [⟨1, "Entity", none⟩], [⟨1, "Foo", "FORMAL", 1⟩],
   [⟨1, "L1"⟩], [⟨1, "P1"⟩, ⟨1, "P2"⟩], [], [],
   [⟨"L1", "SDN"⟩, ⟨"P1", "IRAN"⟩, ⟨"P2", "SYRIA"⟩]⟩

/-- Detail record resolved for the C8 witness. -/
def c8wdetail : PartyData :=
  match get_party_data c8wdb 1 with
  | .found d => d
  | _ => ⟨"", "", "", none, "", [], [], []⟩

/-- C9 counterexample database: two parties whose canonical names contain
"corp", but party 2 has no list-link row. -/
def c9cdb : Database :=
  ⟨true, [⟨1, "Entity", none⟩, ⟨2, "Entity", none⟩],
   [⟨1, "Alpha Corp", "FORMAL", 1⟩, ⟨2, "Beta Corp", "FORMAL", 1⟩],
   [⟨1, "L1"⟩], [], [], [], [⟨"L1", "SDN"⟩]⟩

/-- C9 witness database: two complete parties whose canonical names contain
"corp". -/
def c9wdb : Database :=
  ⟨true, [⟨1, "Entity", none⟩, ⟨2, "Entity", none⟩],
   [⟨2, "Alpha Corp", "FORMAL", 1⟩, ⟨1, "Beta Corp", "FORMAL", 1⟩],
   [⟨1, "L1"⟩, ⟨2, "L1"⟩], [], [], [], [⟨"L1", "SDN"⟩]⟩

/-- C10 witness database: the DB file is missing. -/
def c10db : Database := ⟨false, [], [], [], [], [], [], []⟩

/-- C10 witness request: valid query, invalid scope. -/
def c10args : SearchArgs := ⟨some "ab", none, some "bogus", none, none, none, none⟩

/-! ## General lemmas: the BINARY-collation order -/

/-- Irreflexivity of the byte order. -/
theorem strLt_irrefl : ∀ x : List Char, strLtChars x x = false := by
  intro x
  induction x with
  | nil => rfl
  | cons a as ih => simp [strLtChars, ih]

/-- Transitivity of the byte order. -/
theorem strLt_trans : ∀ x y z : List Char,
    strLtChars x y = true → strLtChars y z = true → strLtChars x z = true := by
  intro x
  induction x with
  | nil =>
    intro y z h1 h2
    cases z with
    | nil =>
      cases y with
      | nil => simp [strLtChars] at h1
      | cons b bs => simp [strLtChars] at h2
    | cons c cs => rfl
  | cons a as ih =>
    intro y z h1 h2
    cases y with
    | nil => simp [strLtChars] at h1
    | cons b bs =>
      cases z with
      | nil => simp [strLtChars] at h2
      | cons c cs =>
        simp only [strLtChars] at h1 h2 ⊢
        split_ifs at h1 h2 ⊢ <;>
          first
          | rfl
          | omega
          | exact ih bs cs h1 h2

/-- Trichotomy of the byte order. -/
theorem strLt_tri : ∀ x y : List Char,
    strLtChars x y = true ∨ strLtChars y x = true ∨ x = y := by
  intro x
  induction x with
  | nil =>
    intro y
    cases y with
    | nil => right; right; rfl
    | cons c cs => left; rfl
  | cons a as ih =>
    intro y
    cases y with
    | nil => right; left; rfl
    | cons b bs =>
      by_cases hab : a.toNat < b.toNat
      · left; simp [strLtChars, hab]
      · by_cases hba : b.toNat < a.toNat
        · right; left; simp [strLtChars, hba]
        · have hch : a = b := Char.ext (UInt32.ext (by
            have : a.toNat = b.toNat := by omega
            simpa [Char.toNat] using this))
          subst hch
          rcases ih bs with h | h | h
          · left; simp [strLtChars, h]
          · right; left; simp [strLtChars, h]
          · right; right; rw [h]

/-- Asymmetry of the byte order. -/
theorem strLt_asymm {x y : List Char} (h : strLtChars x y = true) :
    strLtChars y x = false := by
  by_contra hc
  have h2 : strLtChars y x = true := by
    cases hyx : strLtChars y x
    · exact absurd hyx hc
    · rfl
  have := strLt_trans x y x h h2
  rw [strLt_irrefl] at this
  cases this

/-- Totality of the reflexive byte order. -/
theorem strLe_total (s t : String) : strLe s t = true ∨ strLe t s = true := by
  unfold strLe
  rcases strLt_tri t.data s.data with h | h | h
  · right; rw [strLt_asymm h]; rfl
  · left; rw [strLt_asymm h]; rfl
  · left; rw [h, strLt_irrefl]; rfl

/-- Transitivity of the reflexive byte order. -/
theorem strLe_trans {s t u : String} (h1 : strLe s t = true) (h2 : strLe t u = true) :
    strLe s u = true := by
  unfold strLe at *
  by_contra hc
  have hus : strLtChars u.data s.data = true := by
    cases h : strLtChars u.data s.data
    · rw [h] at hc; exact absurd rfl hc
    · rfl
  rcases strLt_tri s.data t.data with h | h | h
  · have := strLt_trans u.data s.data t.data hus h
    rw [this] at h2; cases h2
  · rw [h] at h1; cases h1
  · rw [h] at hus; rw [hus] at h2; cases h2

/-- Reflexivity of the reflexive byte order. -/
theorem strLe_refl (s : String) : strLe s s = true := by
  unfold strLe; rw [strLt_irrefl]; rfl

/-! ## General lemmas: first-occurrence deduplication -/

/-- Unfolding equation of `dedupAux` on a cons cell. -/
theorem dedupAux_cons [DecidableEq α] (seen : List α) (a : α) (as : List α) :
    dedupAux seen (a :: as) =
      if a ∈ seen then dedupAux seen as else a :: dedupAux (a :: seen) as := rfl

/-- Elements of `dedupAux` come from the input list. -/
theorem mem_of_dedupAux [DecidableEq α] :
    ∀ (seen l : List α) (x : α), x ∈ dedupAux seen l → x ∈ l := by
  intro seen l
  induction l generalizing seen with
  | nil => intro x h; cases h
  | cons a as ih =>
    intro x h
    rw [dedupAux_cons] at h
    by_cases ha : a ∈ seen
    · rw [if_pos ha] at h
      exact List.mem_cons_of_mem a (ih seen x h)
    · rw [if_neg ha] at h
      rcases List.mem_cons.mp h with rfl | h
      · exact List.mem_cons_self x as
      · exact List.mem_cons_of_mem a (ih (a :: seen) x h)

/-- `dedupAux` drops a block whose elements are all already seen. -/
theorem dedupAux_all_seen [DecidableEq α] :
    ∀ (seen l : List α), (∀ x ∈ l, x ∈ seen) → dedupAux seen l = [] := by
  intro seen l
  induction l generalizing seen with
  | nil => intro _; rfl
  | cons a as ih =>
    intro h
    rw [dedupAux_cons, if_pos (h a (List.mem_cons_self a as))]
    exact ih seen (fun x hx => h x (List.mem_cons_of_mem a hx))

/-- `dedupAux` skips an already-seen prefix block. -/
theorem dedupAux_skip_seen [DecidableEq α] :
    ∀ (seen l rest : List α), (∀ x ∈ l, x ∈ seen) →
      dedupAux seen (l ++ rest) = dedupAux seen rest := by
  intro seen l
  induction l generalizing seen with
  | nil => intro rest _; rfl
  | cons a as ih =>
    intro rest h
    rw [List.cons_append, dedupAux_cons, if_pos (h a (List.mem_cons_self a as))]
    exact ih seen rest (fun x hx => h x (List.mem_cons_of_mem a hx))

/-- Deduplicating two non-empty constant blocks with distinct values gives
exactly the two values, in first-appearance order. -/
theorem dedupFirst_two_blocks [DecidableEq α] (l1 l2 : List α) (k1 k2 : α)
    (h1 : ∀ x ∈ l1, x = k1) (h2 : ∀ x ∈ l2, x = k2)
    (hn1 : l1 ≠ []) (hn2 : l2 ≠ []) (hk : k1 ≠ k2) :
    dedupFirst (l1 ++ l2) = [k1, k2] := by
  cases l1 with
  | nil => exact absurd rfl hn1
  | cons a t1 =>
    have ha : a = k1 := h1 a (List.mem_cons_self a t1)
    subst ha
    unfold dedupFirst
    rw [List.cons_append, dedupAux_cons, if_neg (List.not_mem_nil a)]
    rw [dedupAux_skip_seen (a :: []) t1 l2
      (fun x hx => by
        rw [h1 x (List.mem_cons_of_mem a hx)]; exact List.mem_cons_self a [])]
    cases l2 with
    | nil => exact absurd rfl hn2
    | cons b t2 =>
      have hb : b = k2 := h2 b (List.mem_cons_self b t2)
      subst hb
      rw [dedupAux_cons, if_neg (by
        intro hmem
        rcases List.mem_cons.mp hmem with h | h
        · exact hk h.symm
        · cases h)]
      rw [dedupAux_all_seen (b :: a :: []) t2
        (fun x hx => by
          rw [h2 x (List.mem_cons_of_mem b hx)]; exact List.mem_cons_self b _)]

/-! ## General lemmas: list plumbing for the joins -/

/-- A flatMap is unchanged by dropping elements on which it vanishes. -/
theorem flatMap_filter_congr {α β : Type} (l : List α) (f : α → List β) (p : α → Bool)
    (h : ∀ a ∈ l, p a = false → f a = []) :
    l.flatMap f = (l.filter p).flatMap f := by
  induction l with
  | nil => rfl
  | cons a as ih =>
    rw [List.flatMap_cons, List.filter_cons]
    cases hp : p a
    · rw [h a (List.mem_cons_self a as) hp]
      simp only [Bool.false_eq_true, if_false]
      exact ih (fun x hx hpx => h x (List.mem_cons_of_mem a hx) hpx)
    · simp only [if_true]
      rw [List.flatMap_cons]
      rw [ih (fun x hx hpx => h x (List.mem_cons_of_mem a hx) hpx)]

/-- A flatMap over a non-empty list of non-empty blocks is non-empty. -/
theorem flatMap_ne_nil {α β : Type} (l : List α) (f : α → List β)
    (hl : l ≠ []) (hf : ∀ a ∈ l, f a ≠ []) : l.flatMap f ≠ [] := by
  cases l with
  | nil => exact absurd rfl hl
  | cons a as =>
    rw [List.flatMap_cons]
    intro hnil
    rcases List.append_eq_nil.mp hnil with ⟨h1, _⟩
    exact hf a (List.mem_cons_self a as) h1

/-- The per-link program cells are never empty. -/
theorem progCellsOf_ne_nil (db : Database) (pl : ProgramLinkRow) :
    progCellsOf db pl ≠ [] := by
  unfold progCellsOf
  split
  · simp
  · intro h
    rw [List.map_eq_nil_iff] at h
    simp_all [List.isEmpty_iff]

/-- The program-cell column of the LEFT JOIN is never empty. -/
theorem programCells_ne_nil (db : Database) (pid : Nat) :
    programCells db pid ≠ [] := by
  unfold programCells
  split
  · simp
  · refine flatMap_ne_nil _ _ ?_ (fun pl _ => progCellsOf_ne_nil db pl)
    simp_all [List.isEmpty_iff]

/-- The per-address cells are never empty. -/
theorem addrCellsOf_ne_nil (db : Database) (ad : AddressRow) :
    addrCellsOf db ad ≠ [] := by
  unfold addrCellsOf
  split
  · simp
  · intro h
    rw [List.map_eq_nil_iff] at h
    simp_all [List.isEmpty_iff]

/-- The address-cell column of the LEFT JOIN is never empty. -/
theorem addrCells_ne_nil (db : Database) (pid : Nat) :
    addrCells db pid ≠ [] := by
  unfold addrCells
  split
  · simp
  · refine flatMap_ne_nil _ _ ?_ (fun ad _ => addrCellsOf_ne_nil db ad)
    simp_all [List.isEmpty_iff]

/-! ## General lemmas: the search pipeline -/

/-- The composer fails with the storage error whenever the DB file is
missing, before any other processing. -/
theorem advanced_storage (db : Database) (q scope : String)
    (country city : Option String) (limit : Int) (fuzzy : Bool)
    (hdb : db.dbExists = false) :
    search_party_advanced db q scope country city limit fuzzy =
      .storageError dbMissingMsg := by
  unfold search_party_advanced
  rw [hdb]
  rfl

/-- The composer succeeds on an existing DB and a valid scope, returning
the query rows truncated to the clamped limit. -/
theorem advanced_ok (db : Database) (q scope : String) (country city : Option String)
    (limit : Int) (fuzzy : Bool) (hdb : db.dbExists = true)
    (hs : lowerStr scope ∈ ALLOWED_SCOPES) :
    search_party_advanced db q scope country city limit fuzzy =
      .ok (searchHits db q (lowerStr scope) country city
        (max 1 (min limit 1000)).toNat) := by
  unfold search_party_advanced
  rw [hdb]
  simp only [Bool.not_true, Bool.false_eq_true, if_false]
  rw [if_neg (not_not_intro hs)]

/-- Inversion: a successful composer call returns exactly the query rows
truncated to the clamped limit. -/
theorem advanced_ok_inv {db : Database} {q scope : String} {country city : Option String}
    {limit : Int} {fuzzy : Bool} {hits : List SearchHit}
    (h : search_party_advanced db q scope country city limit fuzzy = .ok hits) :
    hits = searchHits db q (lowerStr scope) country city
      (max 1 (min limit 1000)).toNat := by
  unfold search_party_advanced at h
  split at h
  · cases h
  · split at h
    · cases h
    · cases h
      rfl

/-- A row produced by `candRows` carries its candidate. -/
theorem cand_of_mem_candRows {db : Database} {s : Candidate} {r : JoinedRow}
    (h : r ∈ candRows db s) : r.cand = s := by
  unfold candRows at h
  simp only [List.mem_flatMap, List.mem_map, List.mem_filter] at h
  obtain ⟨p, _, pn, _, lv, _, c, _, ad, _, rfl⟩ := h
  rfl

/-- Every search hit is built on some row surviving the WHERE clause, and
shows that row's match field. -/
theorem mem_searchHits_key {db : Database} {q scope : String}
    {country city : Option String} {limN : Nat} {x : SearchHit}
    (hmem : x ∈ searchHits db q scope country city limN) :
    ∃ r ∈ filteredRows db q scope country city,
      x.matchField = r.cand.match_field := by
  unfold searchHits at hmem
  have h1 := List.take_subset _ _ hmem
  rw [List.mem_insertionSort] at h1
  unfold dedupFirst at h1
  have h2 := mem_of_dedupAux _ _ _ h1
  unfold groupedHits at h2
  rw [List.mem_map] at h2
  obtain ⟨k, hk, rfl⟩ := h2
  unfold dedupFirst at hk
  have h3 := mem_of_dedupAux _ _ _ hk
  rw [List.mem_map] at h3
  obtain ⟨r, hr, rfl⟩ := h3
  exact ⟨r, hr, rfl⟩

/-- When the scope is not "all", every row surviving the WHERE clause
matches on exactly the scope field. -/
theorem matchField_of_filtered {db : Database} {q scope : String}
    {country city : Option String} {r : JoinedRow}
    (hr : r ∈ filteredRows db q scope country city)
    (hs : (scope == "all") = false) :
    r.cand.match_field = scope := by
  unfold filteredRows at hr
  have hw := (List.mem_filter.mp hr).2
  unfold whereClause at hw
  rw [hs] at hw
  simp only [Bool.false_or, Bool.and_eq_true] at hw
  exact beq_iff_eq.mp hw.1.1.2

/-- The rows returned by a search are sorted ascending by entity name. -/
theorem pairwise_searchHits (db : Database) (q scope : String)
    (country city : Option String) (limN : Nat) :
    List.Pairwise hitRel (searchHits db q scope country city limN) := by
  unfold searchHits
  refine List.Pairwise.sublist (List.take_sublist _ _) ?_
  haveI : IsTotal SearchHit hitRel := ⟨fun a b => strLe_total a.entityName b.entityName⟩
  haveI : IsTrans SearchHit hitRel := ⟨fun a b c h1 h2 => strLe_trans h1 h2⟩
  exact List.sorted_insertionSort hitRel _

/-! ## Claim theorems -/

/-- C3: for every search call the requested limit is clamped into [1,1000]
rather than rejected, and the hit list is truncated to the clamped value;
in particular the clamp is at most 1000 (so limit=5000 yields at most 1000
rows) and equals 1 for every limit ≤ 0 (so limit=0 yields at most 1 row). -/
theorem c3_limit_clamped (db : Database) (q scope : String)
    (country city : Option String) (limit : Int) (fuzzy : Bool)
    (hits : List SearchHit)
    (h : search_party_advanced db q scope country city limit fuzzy = .ok hits) :
    hits.length ≤ (max 1 (min limit 1000)).toNat ∧
    (max 1 (min limit 1000)).toNat ≤ 1000 ∧
    (limit ≤ 0 → (max 1 (min limit 1000)).toNat = 1) := by
  have hh := advanced_ok_inv h
  subst hh
  refine ⟨?_, by omega, fun _ => by omega⟩
  unfold searchHits
  exact List.length_take_le _ _

/-- C3 witness: the theorem applied to a concrete call with limit 5000. -/
theorem c3_limit_clamped_witness :
    ([] : List SearchHit).length ≤ (max 1 (min (5000 : Int) 1000)).toNat ∧
    (max 1 (min (5000 : Int) 1000)).toNat ≤ 1000 ∧
    ((5000 : Int) ≤ 0 → (max 1 (min (5000 : Int) 1000)).toNat = 1) :=
  c3_limit_clamped c3db "ab" "all" none none 5000 false [] rfl

/-- C5: for a valid numeric partyId, the get-party route answers the
404-style NotFound envelope when the DB file exists and the details query
is empty, and the 500-style storage envelope (never NotFound) whenever the
DB file is missing. -/
theorem c5_notfound_vs_storage (db : Database) (s : String)
    (hdig : isPyDigits s = true) :
    (db.dbExists = true → detailsJoin db (natOfDigits s) = [] →
      ofac_party db (some s) = .notFoundResp (notFoundMsg (natOfDigits s))) ∧
    (db.dbExists = false →
      ofac_party db (some s) = .serverError dbMissingMsg) := by
  constructor
  · intro hdb hjoin
    simp only [ofac_party]
    rw [if_pos hdig]
    unfold get_party_data
    rw [hdb]
    simp only [Bool.not_true, Bool.false_eq_true, if_false]
    rw [hjoin]
  · intro hdb
    simp only [ofac_party]
    rw [if_pos hdig]
    unfold get_party_data
    rw [hdb]
    rfl

/-- C5 witness: id 999999 on an existing DB with no matching record is
NotFound, not a storage error. -/
theorem c5_notfound_vs_storage_witness :
    ofac_party c5db (some "999999") = .notFoundResp (notFoundMsg 999999) :=
  (c5_notfound_vs_storage c5db "999999" rfl).1 rfl rfl

/-- C10: the composer checks the backing store before validating scope:
with the DB file missing, every call — any scope, including invalid ones —
yields the storage error, and the route surfaces it as the 500 envelope
(not a 400) whenever the request passes the query and limit checks. -/
theorem c10_storage_before_scope (db : Database) (hdb : db.dbExists = false) :
    (∀ (q scope : String) (country city : Option String) (limit : Int)
        (fuzzy : Bool),
      search_party_advanced db q scope country city limit fuzzy =
        .storageError dbMissingMsg) ∧
    (∀ a : SearchArgs, qok a = true → limOk a = true →
      search_party db a = .serverError dbMissingMsg) := by
  constructor
  · intro q scope country city limit fuzzy
    exact advanced_storage db q scope country city limit fuzzy hdb
  · intro a hq hlim
    unfold qok at hq
    cases hpy : pyOr a.q a.name with
    | none => rw [hpy] at hq; cases hq
    | some qp =>
      rw [hpy] at hq
      simp only [Bool.and_eq_true, bne_iff_ne, decide_eq_true_eq] at hq
      simp only [search_party, hpy]
      rw [if_neg (by
        push_neg
        constructor
        · intro he
          rw [he] at hq
          simp at hq
        · omega)]
      unfold limOk at hlim
      cases hl : a.limit with
      | none =>
        simp only [hl]
        rw [advanced_storage db (trimStr qp) (scopeEff a) a.country a.city 100
          (lowerStr (a.fuzzy.getD "false") == "true") hdb]
      | some ls =>
        rw [hl] at hlim
        obtain ⟨v, hv⟩ := Option.isSome_iff_exists.mp hlim
        simp only [hl, hv]
        rw [advanced_storage db (trimStr qp) (scopeEff a) a.country a.city v
          (lowerStr (a.fuzzy.getD "false") == "true") hdb]

/-- C10 witness: missing DB with an invalid scope still yields the storage
error at both levels. -/
theorem c10_storage_before_scope_witness :
    search_party c10db c10args = .serverError dbMissingMsg :=
  (c10_storage_before_scope c10db rfl).2 c10args rfl rfl

/-- C6: the scope filter is sound: a successful call with scope "name",
"alias" or "address" only returns hits whose matched field equals that
scope. -/
theorem c6_scope_filter_sound (db : Database) (q s : String)
    (country city : Option String) (limit : Int) (fuzzy : Bool)
    (hits : List SearchHit)
    (hs : s = "name" ∨ s = "alias" ∨ s = "address")
    (h : search_party_advanced db q s country city limit fuzzy = .ok hits) :
    ∀ x ∈ hits, x.matchField = s := by
  have hh := advanced_ok_inv h
  subst hh
  intro x hx
  rcases hs with rfl | rfl | rfl
  · have hL : lowerStr "name" = "name" := rfl
    rw [hL] at hx
    obtain ⟨r, hr, hf⟩ := mem_searchHits_key hx
    rw [hf]
    exact matchField_of_filtered hr rfl
  · have hL : lowerStr "alias" = "alias" := rfl
    rw [hL] at hx
    obtain ⟨r, hr, hf⟩ := mem_searchHits_key hx
    rw [hf]
    exact matchField_of_filtered hr rfl
  · have hL : lowerStr "address" = "address" := rfl
    rw [hL] at hx
    obtain ⟨r, hr, hf⟩ := mem_searchHits_key hx
    rw [hf]
    exact matchField_of_filtered hr rfl

/-- C6 witness: a concrete scope "alias" call whose hits all carry the
"alias" match field. -/
theorem c6_scope_filter_sound_witness :
    c6hits.all (fun x => decide (x.matchField = "alias")) = true := by
  have hall := c6_scope_filter_sound c6db "co" "alias" none none 100 false c6hits
    (Or.inr (Or.inl rfl)) rfl
  rw [List.all_eq_true]
  intro x hx
  exact decide_eq_true (hall x hx)

/-- C1 counterexample: in `c1cdb`, party 1 has a party row and a canonical
(primary, FORMAL) name row, yet the resolver answers NotFound, because the
details query inner-joins the list-link and code-master tables and party 1
has no list link.  The canonical-name lookup is therefore not the sole
existence check. -/
theorem c1_counterexample :
    get_party_data c1cdb 1 = .notFound ∧
    canonicalNames c1cdb 1 = [⟨1, "Foo Corp", "FORMAL", 1⟩] ∧
    c1cdb.party = [⟨1, "Entity", none⟩] :=
  ⟨rfl, rfl, rfl⟩

/-- C1 (amended): with the DB file present, the resolver returns a
PartyDetail iff the party row exists, a canonical (primary, FORMAL) name
row exists, and at least one list-link row resolves in the code master;
otherwise it returns NotFound.  Rows of the program, attribute and address
tables remain irrelevant to existence (the right-hand side does not
mention them). -/
theorem c1_existence_check (db : Database) (pid : Nat) (hdb : db.dbExists = true) :
    (∃ d, get_party_data db pid = .found d) ↔
      ((∃ p ∈ db.party, p.party_id = pid) ∧
       (∃ n ∈ db.partyName, n.party_id = pid ∧ n.is_primary_flg = 1 ∧
          n.name_type_cd = "FORMAL") ∧
       (∃ ll ∈ db.listLink, ll.party_id = pid ∧
          ∃ c ∈ db.codeMaster, c.code_id = ll.list_cd)) := by
  have hstep : (∃ d, get_party_data db pid = .found d) ↔ detailsJoin db pid ≠ [] := by
    unfold get_party_data
    rw [hdb]
    simp only [Bool.not_true, Bool.false_eq_true, if_false]
    cases hj : detailsJoin db pid with
    | nil => simp
    | cons r rs => simp
  rw [hstep]
  constructor
  · intro hne
    obtain ⟨r, hr⟩ := List.exists_mem_of_ne_nil _ hne
    unfold detailsJoin at hr
    simp only [List.mem_flatMap, List.mem_map] at hr
    obtain ⟨p, hp, n, hn, lv, hlv, _, _, _⟩ := hr
    have hp2 := List.mem_filter.mp hp
    have hpid : p.party_id = pid := by simpa using hp2.2
    unfold canonicalNames at hn
    have hn2 := List.mem_filter.mp hn
    have hn3 : n.party_id = pid ∧ n.is_primary_flg = 1 ∧ n.name_type_cd = "FORMAL" := by
      simpa [Bool.and_eq_true, and_assoc] using hn2.2
    unfold listValues at hlv
    simp only [List.mem_flatMap, List.mem_map] at hlv
    obtain ⟨ll, hll, c, hc, _⟩ := hlv
    have hll2 := List.mem_filter.mp hll
    have hc2 := List.mem_filter.mp hc
    refine ⟨⟨p, hp2.1, hpid⟩, ⟨n, hn2.1, hn3⟩,
      ⟨ll, hll2.1, by simpa using hll2.2, c, hc2.1, by simpa using hc2.2⟩⟩
  · rintro ⟨⟨p, hp, hpid⟩, ⟨n, hn, hn1, hn2, hn3⟩, ⟨ll, hll, hllp, c, hc, hcc⟩⟩
    obtain ⟨cell, hcell⟩ :=
      List.exists_mem_of_ne_nil _ (programCells_ne_nil db pid)
    refine List.ne_nil_of_mem (a := (⟨p, n, c.code_value, cell⟩ : DetailJoinRow)) ?_
    unfold detailsJoin
    simp only [List.mem_flatMap, List.mem_map]
    refine ⟨p, List.mem_filter.mpr ⟨hp, by simp [hpid]⟩,
      n, ?_, c.code_value, ?_, cell, hcell, rfl⟩
    · unfold canonicalNames
      exact List.mem_filter.mpr ⟨hn, by simp [hn1, hn2, hn3]⟩
    · unfold listValues
      simp only [List.mem_flatMap, List.mem_map]
      exact ⟨ll, List.mem_filter.mpr ⟨hll, by simp [hllp]⟩,
        c, List.mem_filter.mpr ⟨hc, by simp [hcc]⟩, rfl⟩

/-- C1 witness: with a party row, canonical name and resolving list link,
the resolver does produce a PartyDetail. -/
theorem c1_existence_check_witness : ∃ d, get_party_data c1wdb 1 = .found d :=
  (c1_existence_check c1wdb 1 rfl).mpr (by decide)

/-- C2 evaluation: with `name=corp` and no `scope`, the route accepts the
legacy parameter but searches with the default scope "all": against a
dataset whose only text containing "corp" is an alias, it returns that
alias hit, whereas the same query with an explicit `scope=name` returns
nothing.  The implicit `scope=name` promised by the claim (and by the
module docstring) is not implemented. -/
theorem c2_legacy_name_scope :
    search_party c2db c2argsLegacy =
      .ok [⟨1, "Alpha", "Entity", "SDN", none, "alias", "Beta Corp"⟩] ∧
    search_party c2db c2argsScoped = .ok [] ∧
    scopeEff c2argsLegacy = "all" :=
  ⟨rfl, rfl, rfl⟩

/-- The composer raises the scope ValueError on an existing DB and an
invalid scope. -/
theorem advanced_value_error (db : Database) (q scope : String)
    (country city : Option String) (limit : Int) (fuzzy : Bool)
    (hdb : db.dbExists = true) (hs : lowerStr scope ∉ ALLOWED_SCOPES) :
    search_party_advanced db q scope country city limit fuzzy =
      .valueError scopeErrMsg := by
  unfold search_party_advanced
  rw [hdb]
  simp only [Bool.not_true, Bool.false_eq_true, if_false]
  rw [if_pos hs]

/-- Once the query and limit checks pass, the route's response is the
mapped composer outcome. -/
theorem search_party_eq_of_valid {db : Database} {a : SearchArgs} {qp : String}
    (hpy : pyOr a.q a.name = some qp)
    (hbad : ¬(qp = "" ∨ (trimStr qp).length < 2)) (lim : Int)
    (hlim : (match a.limit with
      | none => some (100 : Int)
      | some ls => parsePyInt ls) = some lim) :
    search_party db a =
      (match search_party_advanced db (trimStr qp) (scopeEff a) a.country a.city lim
          (lowerStr (a.fuzzy.getD "false") == "true") with
        | .valueError m => SearchResponse.badRequest m
        | .storageError m => SearchResponse.serverError m
        | .ok hits => SearchResponse.ok hits) := by
  simp only [search_party, hpy]
  rw [if_neg hbad]
  simp only [hlim]

/-- C4 counterexample: a request with a 2-character query and a valid
(default) scope is still rejected with a 400 when its limit parameter does
not parse as an integer — input validity is not exhausted by the query and
scope checks. -/
theorem c4_counterexample :
    search_party c4db ⟨some "ab", none, none, none, none, some "xyz", none⟩ =
      .badRequest limitMsg ∧
    (trimStr "ab").length = 2 ∧
    scopeOk ⟨some "ab", none, none, none, none, some "xyz", none⟩ = true :=
  ⟨rfl, rfl, rfl⟩

/-- C4 (amended): the search route responds 400 exactly when the effective
query is missing or shorter than 2 characters after trimming, or the limit
parameter fails to parse as an integer, or — with the DB file present — the
effective scope is outside the four allowed values.  (With the DB file
missing an invalid scope is never reached: the storage error wins.)  In
particular a call with a valid query, parseable limit and valid scope is
never rejected for input reasons.  The limit parameter is restricted to
ASCII text, the domain on which the model's `parsePyInt` is exactly
Python's `int` (which additionally accepts non-ASCII Unicode digits). -/
theorem c4_reject_iff (db : Database) (a : SearchArgs)
    (hascii : limitAscii a = true) :
    (∃ m, search_party db a = .badRequest m) ↔
      (qok a = false ∨ limOk a = false ∨
        (db.dbExists = true ∧ scopeOk a = false)) := by
  cases hpy : pyOr a.q a.name with
  | none =>
    have hqok : qok a = false := by unfold qok; rw [hpy]
    have hresp : search_party db a = .badRequest searchQMsg := by
      simp only [search_party, hpy]
    simp [hresp, hqok]
  | some qp =>
    by_cases hbad : qp = "" ∨ (trimStr qp).length < 2
    · have hqok : qok a = false := by
        unfold qok
        rw [hpy]
        rcases hbad with h | h
        · subst h; rfl
        · have h2 : ¬ (2 ≤ (trimStr qp).length) := by omega
          simp [h2]
      have hresp : search_party db a = .badRequest searchQMsg := by
        simp only [search_party, hpy]
        rw [if_pos hbad]
      simp [hresp, hqok]
    · have hqok : qok a = true := by
        unfold qok
        rw [hpy]
        push_neg at hbad
        have h2 : 2 ≤ (trimStr qp).length := by omega
        simp [hbad.1, h2]
      cases hl : a.limit with
      | none =>
        have hlimok : limOk a = true := by unfold limOk; rw [hl]
        have hlim : (match a.limit with
            | none => some (100 : Int)
            | some ls => parsePyInt ls) = some 100 := by rw [hl]
        cases hdb : db.dbExists with
        | false =>
          have hresp : search_party db a = .serverError dbMissingMsg := by
            rw [search_party_eq_of_valid hpy hbad 100 hlim,
              advanced_storage db _ _ _ _ _ _ hdb]
          simp [hresp, hqok, hlimok, hdb]
        | true =>
          by_cases hsc : lowerStr (scopeEff a) ∈ ALLOWED_SCOPES
          · have hscok : scopeOk a = true := by
              unfold scopeOk; exact decide_eq_true hsc
            have hresp : search_party db a = .ok (searchHits db (trimStr qp)
                (lowerStr (scopeEff a)) a.country a.city
                (max 1 (min (100 : Int) 1000)).toNat) := by
              rw [search_party_eq_of_valid hpy hbad 100 hlim,
                advanced_ok db _ _ _ _ _ _ hdb hsc]
            simp [hresp, hqok, hlimok, hscok]
          · have hscok : scopeOk a = false := by
              unfold scopeOk; exact decide_eq_false hsc
            have hresp : search_party db a = .badRequest scopeErrMsg := by
              rw [search_party_eq_of_valid hpy hbad 100 hlim,
                advanced_value_error db _ _ _ _ _ _ hdb hsc]
            simp [hresp, hqok, hlimok, hscok, hdb]
      | some ls =>
        cases hls : parsePyInt ls with
        | none =>
          have hlimok : limOk a = false := by
            unfold limOk; simp only [hl, hls, Option.isSome_none]
          have hresp : search_party db a = .badRequest limitMsg := by
            simp only [search_party, hpy]
            rw [if_neg hbad]
            simp only [hl, hls]
          simp [hresp, hlimok]
        | some v =>
          have hlimok : limOk a = true := by
            unfold limOk; simp only [hl, hls, Option.isSome_some]
          have hlim : (match a.limit with
              | none => some (100 : Int)
              | some ls => parsePyInt ls) = some v := by simp only [hl, hls]
          cases hdb : db.dbExists with
          | false =>
            have hresp : search_party db a = .serverError dbMissingMsg := by
              rw [search_party_eq_of_valid hpy hbad v hlim,
                advanced_storage db _ _ _ _ _ _ hdb]
            simp [hresp, hqok, hlimok, hdb]
          | true =>
            by_cases hsc : lowerStr (scopeEff a) ∈ ALLOWED_SCOPES
            · have hscok : scopeOk a = true := by
                unfold scopeOk; exact decide_eq_true hsc
              have hresp : search_party db a = .ok (searchHits db (trimStr qp)
                  (lowerStr (scopeEff a)) a.country a.city
                  (max 1 (min v 1000)).toNat) := by
                rw [search_party_eq_of_valid hpy hbad v hlim,
                  advanced_ok db _ _ _ _ _ _ hdb hsc]
              simp [hresp, hqok, hlimok, hscok]
            · have hscok : scopeOk a = false := by
                unfold scopeOk; exact decide_eq_false hsc
              have hresp : search_party db a = .badRequest scopeErrMsg := by
                rw [search_party_eq_of_valid hpy hbad v hlim,
                  advanced_value_error db _ _ _ _ _ _ hdb hsc]
              simp [hresp, hqok, hlimok, hscok, hdb]

/-- C4 witness: the amended iff instantiated at the counterexample
request (ASCII limit "xyz"). -/
theorem c4_reject_iff_witness :
    (∃ m, search_party c4db ⟨some "ab", none, none, none, none, some "xyz", none⟩ =
        .badRequest m) ↔
      (qok ⟨some "ab", none, none, none, none, some "xyz", none⟩ = false ∨
       limOk ⟨some "ab", none, none, none, none, some "xyz", none⟩ = false ∨
       (c4db.dbExists = true ∧
        scopeOk ⟨some "ab", none, none, none, none, some "xyz", none⟩ = false)) :=
  c4_reject_iff c4db ⟨some "ab", none, none, none, none, some "xyz", none⟩ rfl

/-- Inversion: a resolved PartyDetail's alias list is the alias query
result. -/
theorem found_aliases {db : Database} {pid : Nat} {d : PartyData}
    (h : get_party_data db pid = .found d) : d.aliases = aliasRecs db pid := by
  unfold get_party_data at h
  cases hdb : db.dbExists with
  | false => rw [hdb] at h; simp at h
  | true =>
    rw [hdb] at h
    simp only [Bool.not_true, Bool.false_eq_true, if_false] at h
    cases hj : detailsJoin db pid with
    | nil => rw [hj] at h; cases h
    | cons r rs =>
      rw [hj] at h
      cases h
      rfl

/-- Inversion: a resolved PartyDetail's Program field is the GROUP_CONCAT
over the program cells of all joined detail rows. -/
theorem found_program {db : Database} {pid : Nat} {d : PartyData}
    (h : get_party_data db pid = .found d) :
    d.program = concatCells ((detailsJoin db pid).map (fun x => x.progCell)) := by
  unfold get_party_data at h
  cases hdb : db.dbExists with
  | false => rw [hdb] at h; simp at h
  | true =>
    rw [hdb] at h
    simp only [Bool.not_true, Bool.false_eq_true, if_false] at h
    cases hj : detailsJoin db pid with
    | nil => rw [hj] at h; cases h
    | cons r rs =>
      rw [hj] at h
      cases h
      rfl

/-- C7: for every party the resolver returns, the alias list carries the
fixed values Type = "a.k.a." and Category = "weak" on every record, its
names are exactly (as a multiset) the name texts of the rows whose
normalised type code is "aka", and it is ordered ascending by name text. -/
theorem c7_alias_list (db : Database) (pid : Nat) (d : PartyData)
    (h : get_party_data db pid = .found d) :
    (∀ a ∈ d.aliases, a.typeCd = "a.k.a." ∧ a.category = "weak") ∧
    (d.aliases.map (fun a => a.aliasName)).Perm
      ((akaRows db pid).map (fun n => n.name_text)) ∧
    List.Pairwise (fun a b : AliasRec => strLe a.aliasName b.aliasName = true)
      d.aliases := by
  have hd := found_aliases h
  rw [hd]
  unfold aliasRecs
  refine ⟨?_, ?_, ?_⟩
  · intro a ha
    rw [List.mem_map] at ha
    obtain ⟨n, _, rfl⟩ := ha
    exact ⟨rfl, rfl⟩
  · rw [List.map_map]
    have hp : ((List.insertionSort nameTextRel (akaRows db pid)).map
        (fun n => n.name_text)).Perm ((akaRows db pid).map (fun n => n.name_text)) :=
      (List.perm_insertionSort nameTextRel (akaRows db pid)).map _
    simpa using hp
  · rw [List.pairwise_map]
    haveI : IsTotal NameRow nameTextRel := ⟨fun a b => strLe_total _ _⟩
    haveI : IsTrans NameRow nameTextRel := ⟨fun a b c h1 h2 => strLe_trans h1 h2⟩
    exact List.sorted_insertionSort nameTextRel (akaRows db pid)

/-- C7 witness: the theorem applied to a party with two out-of-order
aka rows spelled "AKA" and "a.k.a.". -/
theorem c7_alias_list_witness :
    (∀ a ∈ c7detail.aliases, a.typeCd = "a.k.a." ∧ a.category = "weak") ∧
    (c7detail.aliases.map (fun a => a.aliasName)).Perm
      ((akaRows c7db 1).map (fun n => n.name_text)) ∧
    List.Pairwise (fun a b : AliasRec => strLe a.aliasName b.aliasName = true)
      c7detail.aliases :=
  c7_alias_list c7db 1 c7detail rfl

/-- The flattened (non-NULL) program cells of one link are its resolving
code values. -/
theorem filterMap_progCellsOf (db : Database) (pl : ProgramLinkRow) :
    (progCellsOf db pl).filterMap id =
      (db.codeMaster.filter (fun c => c.code_id == pl.program_cd)).map
        (fun c => c.code_value) := by
  unfold progCellsOf
  split
  · rename_i hemp
    rw [List.isEmpty_iff.mp hemp]
    rfl
  · rw [List.filterMap_map]
    have : (id ∘ fun c : CodeRow => some c.code_value) =
        (some ∘ fun c : CodeRow => c.code_value) := rfl
    rw [this, List.filterMap_eq_map]

/-- The flattened (non-NULL) program cells of a party are exactly its
resolving program codes. -/
theorem filterMap_programCells (db : Database) (pid : Nat) :
    (programCells db pid).filterMap id = programCodes db pid := by
  unfold programCells programCodes
  split
  · rename_i hemp
    rw [List.isEmpty_iff.mp hemp]
    rfl
  · rw [List.filterMap_flatMap]
    exact List.flatMap_congr (fun pl _ => filterMap_progCellsOf db pl)

/-- C8 counterexample: party 1 of `c8db` has exactly one resolving program
code, "IRAN", yet the resolver's Program field is "IRAN; IRAN" (the
GROUP_CONCAT runs over the join with its two list links), which contains
the separator and differs from the single code. -/
theorem c8_counterexample :
    get_party_data c8db 1 = .found c8detail ∧
    programCodes c8db 1 = ["IRAN"] ∧
    c8detail.program = some "IRAN; IRAN" ∧
    c8detail.program ≠ some "IRAN" := by
  refine ⟨rfl, rfl, rfl, ?_⟩
  decide

/-- C8 (amended): for a party the resolver returns that has exactly one
party row, one canonical name row and one resolving list link, the Program
field is the party's N resolving program codes joined with "; " (NULL when
N = 0, the single code verbatim — hence no separator added — when N = 1). -/
theorem c8_program_concat (db : Database) (pid : Nat) (d : PartyData)
    (p : PartyRow) (n : NameRow) (v : String)
    (hres : get_party_data db pid = .found d)
    (hp : db.party.filter (fun x => x.party_id == pid) = [p])
    (hn : canonicalNames db pid = [n])
    (hl : listValues db pid = [v]) :
    d.program = groupConcat "; " (programCodes db pid) ∧
    (programCodes db pid = [] → d.program = none) ∧
    (∀ c : String, programCodes db pid = [c] → d.program = some c) := by
  have hprog := found_program hres
  have hjoin : detailsJoin db pid =
      (programCells db pid).map (fun c => ⟨p, n, v, c⟩) := by
    unfold detailsJoin
    rw [hp, hn, hl]
    simp [List.flatMap_cons, List.flatMap_nil]
  have hmain : d.program = groupConcat "; " (programCodes db pid) := by
    rw [hprog, hjoin, List.map_map]
    have hcomp : ((fun x : DetailJoinRow => x.progCell) ∘
        (fun c => (⟨p, n, v, c⟩ : DetailJoinRow))) = id := rfl
    rw [hcomp, List.map_id]
    unfold concatCells
    rw [filterMap_programCells]
  refine ⟨hmain, ?_, ?_⟩
  · intro h0
    rw [hmain, h0]
    rfl
  · intro c hc
    rw [hmain, hc]
    rfl

/-- C8 witness: a party with one list link and two program codes gets
"IRAN; SYRIA". -/
theorem c8_program_concat_witness :
    c8wdetail.program = groupConcat "; " (programCodes c8wdb 1) ∧
    (programCodes c8wdb 1 = [] → c8wdetail.program = none) ∧
    (∀ c : String, programCodes c8wdb 1 = [c] → c8wdetail.program = some c) :=
  c8_program_concat c8wdb 1 c8wdetail ⟨1, "Entity", none⟩ ⟨1, "Foo", "FORMAL", 1⟩
    "SDN" rfl rfl rfl rfl

/-- C9 counterexample: in `c9cdb` exactly two parties' canonical names
contain "corp" (parties 1 and 2), yet the scope "name" search returns only
one hit — party 2 has no list-link row and the search query inner-joins
the list link, so it drops out. -/
theorem c9_counterexample :
    search_party_advanced c9cdb "corp" "name" none none 100 false =
      .ok [⟨1, "Alpha Corp", "Entity", "SDN", none, "name", "Alpha Corp"⟩] ∧
    ((primaryFormalRows c9cdb).filter (fun n => likeTest n.name_text "corp")).map
      (fun n => n.party_id) = [1, 2] :=
  ⟨rfl, rfl⟩

/-- The join rows a single candidate contributes when its party resolves
through singleton party, canonical-name and list-value rows. -/
theorem candRows_eq_block (db : Database) (s : Candidate) (p : PartyRow)
    (n : NameRow) (v : String)
    (hp : db.party.filter (fun x => x.party_id == s.party_id) = [p])
    (hn : canonicalNames db s.party_id = [n])
    (hl : listValues db s.party_id = [v]) :
    candRows db s = (programCells db s.party_id).flatMap fun c =>
      (addrCells db s.party_id).map fun ad => ⟨s, p, n, v, c, ad⟩ := by
  have hpmem : p ∈ db.party.filter (fun x => x.party_id == s.party_id) := by
    rw [hp]; exact List.mem_cons_self _ _
  have hpp : p.party_id = s.party_id := by
    simpa using (List.mem_filter.mp hpmem).2
  unfold candRows
  rw [hp]
  simp only [List.flatMap_cons, List.flatMap_nil, List.append_nil]
  rw [hpp, hn, hl]
  simp only [List.flatMap_cons, List.flatMap_nil, List.append_nil]

/-- Every row of such a block carries the candidate, the fixed join
partners, and hence a constant group key. -/
theorem mem_block {db : Database} {s : Candidate} {p : PartyRow} {n : NameRow}
    {v : String} {r : JoinedRow}
    (hr : r ∈ (programCells db s.party_id).flatMap fun c =>
      (addrCells db s.party_id).map fun ad => (⟨s, p, n, v, c, ad⟩ : JoinedRow)) :
    r.cand = s ∧
    rowKey r = ⟨p.party_id, n.name_text, p.party_type_cd, v,
      s.match_field, s.match_value⟩ := by
  simp only [List.mem_flatMap, List.mem_map] at hr
  obtain ⟨c, _, ad, _, rfl⟩ := hr
  exact ⟨rfl, rfl⟩

/-- Such a block is non-empty. -/
theorem block_ne_nil (db : Database) (s : Candidate) (p : PartyRow) (n : NameRow)
    (v : String) :
    ((programCells db s.party_id).flatMap fun c =>
      (addrCells db s.party_id).map fun ad => (⟨s, p, n, v, c, ad⟩ : JoinedRow)) ≠ [] := by
  refine flatMap_ne_nil _ _ (programCells_ne_nil db s.party_id) ?_
  intro c _
  rw [Ne, List.map_eq_nil_iff]
  exact addrCells_ne_nil db s.party_id

/-- Two-party scenario at the level of the query rows: when exactly two
primary FORMAL names contain the query and both parties resolve through
singleton join partners, a scope "name" search with no country/city filter
returns exactly the two corresponding hits, in ascending-name order. -/
theorem searchHits_two_name_matches (db : Database) (q : String) (limN : Nat)
    (na nb : NameRow) (pa pb : PartyRow) (va vb : String)
    (hq : (primaryFormalRows db).filter (fun n => likeTest n.name_text q) = [na, nb])
    (hpid : na.party_id ≠ nb.party_id)
    (hpa : db.party.filter (fun p => p.party_id == na.party_id) = [pa])
    (hpb : db.party.filter (fun p => p.party_id == nb.party_id) = [pb])
    (hna : canonicalNames db na.party_id = [na])
    (hnb : canonicalNames db nb.party_id = [nb])
    (hla : listValues db na.party_id = [va])
    (hlb : listValues db nb.party_id = [vb])
    (hlim : 2 ≤ limN) :
    ∃ pra prb,
      searchHits db q "name" none none limN =
        List.insertionSort hitRel
          [⟨na.party_id, na.name_text, pa.party_type_cd, va, pra, "name", na.name_text⟩,
           ⟨nb.party_id, nb.name_text, pb.party_type_cd, vb, prb, "name", nb.name_text⟩] := by
  have hpamem : pa ∈ db.party.filter (fun p => p.party_id == na.party_id) := by
    rw [hpa]; exact List.mem_cons_self _ _
  have hpaid : pa.party_id = na.party_id := by
    simpa using (List.mem_filter.mp hpamem).2
  have hpbmem : pb ∈ db.party.filter (fun p => p.party_id == nb.party_id) := by
    rw [hpb]; exact List.mem_cons_self _ _
  have hpbid : pb.party_id = nb.party_id := by
    simpa using (List.mem_filter.mp hpbmem).2
  have hlikea : likeTest na.name_text q = true := by
    have hmem : na ∈ (primaryFormalRows db).filter (fun n => likeTest n.name_text q) := by
      rw [hq]; exact List.mem_cons_self _ _
    exact (List.mem_filter.mp hmem).2
  have hlikeb : likeTest nb.name_text q = true := by
    have hmem : nb ∈ (primaryFormalRows db).filter (fun n => likeTest n.name_text q) := by
      rw [hq]
      exact List.mem_cons_of_mem _ (List.mem_cons_self _ _)
    exact (List.mem_filter.mp hmem).2
  -- the two blocks of surviving join rows
  have hfila : (candRows db ⟨na.party_id, "name", na.name_text⟩).filter
      (whereClause q "name" none none) =
      (programCells db na.party_id).flatMap fun c =>
        (addrCells db na.party_id).map fun ad =>
          (⟨⟨na.party_id, "name", na.name_text⟩, pa, na, va, c, ad⟩ : JoinedRow) := by
    rw [candRows_eq_block db _ pa na va hpa hna hla]
    apply List.filter_eq_self.mpr
    intro r hr
    obtain ⟨hc, _⟩ := mem_block hr
    simp [whereClause, hc, hlikea, pyTruthy]
  have hfilb : (candRows db ⟨nb.party_id, "name", nb.name_text⟩).filter
      (whereClause q "name" none none) =
      (programCells db nb.party_id).flatMap fun c =>
        (addrCells db nb.party_id).map fun ad =>
          (⟨⟨nb.party_id, "name", nb.name_text⟩, pb, nb, vb, c, ad⟩ : JoinedRow) := by
    rw [candRows_eq_block db _ pb nb vb hpb hnb hlb]
    apply List.filter_eq_self.mpr
    intro r hr
    obtain ⟨hc, _⟩ := mem_block hr
    simp [whereClause, hc, hlikeb, pyTruthy]
  -- decomposition of the filtered rows
  have hfil : filteredRows db q "name" none none =
      ((programCells db na.party_id).flatMap fun c =>
        (addrCells db na.party_id).map fun ad =>
          (⟨⟨na.party_id, "name", na.name_text⟩, pa, na, va, c, ad⟩ : JoinedRow)) ++
      ((programCells db nb.party_id).flatMap fun c =>
        (addrCells db nb.party_id).map fun ad =>
          (⟨⟨nb.party_id, "name", nb.name_text⟩, pb, nb, vb, c, ad⟩ : JoinedRow)) := by
    unfold filteredRows joinedRows unionSearch
    rw [List.flatMap_append, List.flatMap_append,
      List.filter_append, List.filter_append]
    have halias : ((aliasCandidates db).flatMap (candRows db)).filter
        (whereClause q "name" none none) = [] := by
      rw [List.filter_flatMap]
      apply List.flatMap_eq_nil_iff.mpr
      intro s hs
      apply List.filter_eq_nil_iff.mpr
      intro r hr
      have hc := cand_of_mem_candRows hr
      unfold aliasCandidates at hs
      rw [List.mem_map] at hs
      obtain ⟨n0, _, rfl⟩ := hs
      simp [whereClause, hc]
    have haddr : ((addressCandidates db).flatMap (candRows db)).filter
        (whereClause q "name" none none) = [] := by
      rw [List.filter_flatMap]
      apply List.flatMap_eq_nil_iff.mpr
      intro s hs
      apply List.filter_eq_nil_iff.mpr
      intro r hr
      have hc := cand_of_mem_candRows hr
      unfold addressCandidates at hs
      rw [List.mem_map] at hs
      obtain ⟨ad0, _, rfl⟩ := hs
      simp [whereClause, hc]
    rw [halias, haddr, List.append_nil, List.append_nil]
    unfold nameCandidates
    rw [List.filter_flatMap, List.flatMap_map]
    rw [flatMap_filter_congr (primaryFormalRows db)
      (fun n => (candRows db ⟨n.party_id, "name", n.name_text⟩).filter
        (whereClause q "name" none none))
      (fun n => likeTest n.name_text q)
      (by
        intro n0 _ hlike
        apply List.filter_eq_nil_iff.mpr
        intro r hr
        have hc := cand_of_mem_candRows hr
        simp [whereClause, hc, hlike])]
    rw [hq]
    simp only [List.flatMap_cons, List.flatMap_nil, List.append_nil]
    rw [hfila, hfilb]
  -- group keys
  have hkeys : dedupFirst ((filteredRows db q "name" none none).map rowKey) =
      [⟨na.party_id, na.name_text, pa.party_type_cd, va, "name", na.name_text⟩,
       ⟨nb.party_id, nb.name_text, pb.party_type_cd, vb, "name", nb.name_text⟩] := by
    rw [hfil, List.map_append]
    refine dedupFirst_two_blocks _ _ _ _ ?_ ?_ ?_ ?_ ?_
    · intro x hx
      rw [List.mem_map] at hx
      obtain ⟨r, hr, rfl⟩ := hx
      rw [(mem_block hr).2, hpaid]
    · intro x hx
      rw [List.mem_map] at hx
      obtain ⟨r, hr, rfl⟩ := hx
      rw [(mem_block hr).2, hpbid]
    · rw [Ne, List.map_eq_nil_iff]
      exact block_ne_nil db _ pa na va
    · rw [Ne, List.map_eq_nil_iff]
      exact block_ne_nil db _ pb nb vb
    · intro h
      exact hpid (congrArg GroupKey.party_id h)
  -- the grouped hits
  refine ⟨concatCells (((filteredRows db q "name" none none).filter
      (fun r => decide (rowKey r =
        ⟨na.party_id, na.name_text, pa.party_type_cd, va, "name", na.name_text⟩))).map
      (fun r => r.progCell)),
    concatCells (((filteredRows db q "name" none none).filter
      (fun r => decide (rowKey r =
        ⟨nb.party_id, nb.name_text, pb.party_type_cd, vb, "name", nb.name_text⟩))).map
      (fun r => r.progCell)), ?_⟩
  unfold searchHits
  have hgrouped : groupedHits db q "name" none none =
      [⟨na.party_id, na.name_text, pa.party_type_cd, va,
          concatCells (((filteredRows db q "name" none none).filter
            (fun r => decide (rowKey r =
              ⟨na.party_id, na.name_text, pa.party_type_cd, va, "name", na.name_text⟩))).map
            (fun r => r.progCell)), "name", na.name_text⟩,
       ⟨nb.party_id, nb.name_text, pb.party_type_cd, vb,
          concatCells (((filteredRows db q "name" none none).filter
            (fun r => decide (rowKey r =
              ⟨nb.party_id, nb.name_text, pb.party_type_cd, vb, "name", nb.name_text⟩))).map
            (fun r => r.progCell)), "name", nb.name_text⟩] := by
    unfold groupedHits
    rw [hkeys]
    rfl
  rw [hgrouped]
  have hne : (⟨nb.party_id, nb.name_text, pb.party_type_cd, vb,
      concatCells (((filteredRows db q "name" none none).filter
        (fun r => decide (rowKey r =
          ⟨nb.party_id, nb.name_text, pb.party_type_cd, vb, "name", nb.name_text⟩))).map
        (fun r => r.progCell)), "name", nb.name_text⟩ : SearchHit) ≠
      ⟨na.party_id, na.name_text, pa.party_type_cd, va,
        concatCells (((filteredRows db q "name" none none).filter
          (fun r => decide (rowKey r =
            ⟨na.party_id, na.name_text, pa.party_type_cd, va, "name", na.name_text⟩))).map
          (fun r => r.progCell)), "name", na.name_text⟩ := by
    intro h
    exact hpid ((congrArg SearchHit.party_id h).symm)
  have hded2 : dedupFirst
      [(⟨na.party_id, na.name_text, pa.party_type_cd, va,
          concatCells (((filteredRows db q "name" none none).filter
            (fun r => decide (rowKey r =
              ⟨na.party_id, na.name_text, pa.party_type_cd, va, "name", na.name_text⟩))).map
            (fun r => r.progCell)), "name", na.name_text⟩ : SearchHit),
       ⟨nb.party_id, nb.name_text, pb.party_type_cd, vb,
          concatCells (((filteredRows db q "name" none none).filter
            (fun r => decide (rowKey r =
              ⟨nb.party_id, nb.name_text, pb.party_type_cd, vb, "name", nb.name_text⟩))).map
            (fun r => r.progCell)), "name", nb.name_text⟩] =
      [⟨na.party_id, na.name_text, pa.party_type_cd, va,
          concatCells (((filteredRows db q "name" none none).filter
            (fun r => decide (rowKey r =
              ⟨na.party_id, na.name_text, pa.party_type_cd, va, "name", na.name_text⟩))).map
            (fun r => r.progCell)), "name", na.name_text⟩,
       ⟨nb.party_id, nb.name_text, pb.party_type_cd, vb,
          concatCells (((filteredRows db q "name" none none).filter
            (fun r => decide (rowKey r =
              ⟨nb.party_id, nb.name_text, pb.party_type_cd, vb, "name", nb.name_text⟩))).map
            (fun r => r.progCell)), "name", nb.name_text⟩] := by
    unfold dedupFirst
    rw [dedupAux_cons, if_neg (List.not_mem_nil _), dedupAux_cons, if_neg (by
      intro hmem
      rcases List.mem_cons.mp hmem with h | h
      · exact hne h
      · cases h)]
    rfl
  rw [hded2]
  rw [List.take_of_length_le (by
    rw [List.length_insertionSort]
    simpa using hlim)]

/-- Sorting a two-element hit list. -/
theorem insertionSort_pair (a b : SearchHit) :
    List.insertionSort hitRel [a, b] =
      if hitRel a b then [a, b] else [b, a] := by
  have h1 : List.insertionSort hitRel [a, b] = List.orderedInsert hitRel a [b] := rfl
  rw [h1]
  by_cases h : hitRel a b
  · rw [if_pos h]
    unfold List.orderedInsert
    rw [if_pos h]
  · rw [if_neg h]
    unfold List.orderedInsert
    rw [if_neg h]
    rfl

/-- C9: (a) every successful search returns its hits sorted ascending by
canonical display name (ordering happens before the LIMIT truncation); and
(b) the two-party scenario as amended: a dataset in which exactly two
primary FORMAL name rows contain the query — in either table order — with
both parties resolving through unique party rows, unique canonical names
and unique resolving list links, queried with scope "name", no
country/city filter and limit ≥ 2, yields exactly those two hits, in
ascending name order. -/
theorem c9_sorted_and_two_party_scenario :
    (∀ (db : Database) (q scope : String) (country city : Option String)
        (limit : Int) (fuzzy : Bool) (hits : List SearchHit),
        search_party_advanced db q scope country city limit fuzzy = .ok hits →
        List.Pairwise hitRel hits) ∧
    (∀ (db : Database) (q : String) (limit : Int) (fuzzy : Bool)
        (n1 n2 : NameRow) (p1 p2 : PartyRow) (v1 v2 : String),
        db.dbExists = true →
        ((primaryFormalRows db).filter (fun n => likeTest n.name_text q) = [n1, n2] ∨
         (primaryFormalRows db).filter (fun n => likeTest n.name_text q) = [n2, n1]) →
        n1.party_id ≠ n2.party_id →
        db.party.filter (fun p => p.party_id == n1.party_id) = [p1] →
        db.party.filter (fun p => p.party_id == n2.party_id) = [p2] →
        canonicalNames db n1.party_id = [n1] →
        canonicalNames db n2.party_id = [n2] →
        listValues db n1.party_id = [v1] →
        listValues db n2.party_id = [v2] →
        strLtChars n1.name_text.data n2.name_text.data = true →
        2 ≤ limit →
        ∃ pr1 pr2,
          search_party_advanced db q "name" none none limit fuzzy =
            .ok [⟨n1.party_id, n1.name_text, p1.party_type_cd, v1, pr1,
                    "name", n1.name_text⟩,
                 ⟨n2.party_id, n2.name_text, p2.party_type_cd, v2, pr2,
                    "name", n2.name_text⟩]) := by
  constructor
  · intro db q scope country city limit fuzzy hits h
    have hh := advanced_ok_inv h
    subst hh
    exact pairwise_searchHits db q (lowerStr scope) country city _
  · intro db q limit fuzzy n1 n2 p1 p2 v1 v2 hdb htab hpid hp1 hp2 hn1 hn2 hl1 hl2
      hord hlim
    have hlimN : 2 ≤ (max 1 (min limit 1000)).toNat := by omega
    have hadv := advanced_ok db q "name" none none limit fuzzy hdb (by decide)
    have hLname : lowerStr "name" = "name" := rfl
    rw [hLname] at hadv
    rcases htab with htab | htab
    · obtain ⟨pra, prb, hsh⟩ := searchHits_two_name_matches db q
        (max 1 (min limit 1000)).toNat n1 n2 p1 p2 v1 v2
        htab hpid hp1 hp2 hn1 hn2 hl1 hl2 hlimN
      refine ⟨pra, prb, ?_⟩
      rw [hadv, hsh, insertionSort_pair, if_pos ?_]
      show strLe n1.name_text n2.name_text = true
      unfold strLe
      rw [strLt_asymm hord]
      rfl
    · obtain ⟨pra, prb, hsh⟩ := searchHits_two_name_matches db q
        (max 1 (min limit 1000)).toNat n2 n1 p2 p1 v2 v1
        htab (fun h => hpid h.symm) hp2 hp1 hn2 hn1 hl2 hl1 hlimN
      refine ⟨prb, pra, ?_⟩
      rw [hadv, hsh, insertionSort_pair, if_neg ?_]
      show ¬ strLe n2.name_text n1.name_text = true
      unfold strLe
      rw [hord]
      simp

/-- C9 witness: part (b) applied to a concrete two-party dataset, listed in
descending name order in the table, still yields the two hits ascending. -/
theorem c9_sorted_and_two_party_scenario_witness :
    ∃ pr1 pr2, search_party_advanced c9wdb "corp" "name" none none 100 false =
      .ok [⟨2, "Alpha Corp", "Entity", "SDN", pr1, "name", "Alpha Corp"⟩,
           ⟨1, "Beta Corp", "Entity", "SDN", pr2, "name", "Beta Corp"⟩] :=
  c9_sorted_and_two_party_scenario.2 c9wdb "corp" 100 false
    ⟨2, "Alpha Corp", "FORMAL", 1⟩ ⟨1, "Beta Corp", "FORMAL", 1⟩
    ⟨2, "Entity", none⟩ ⟨1, "Entity", none⟩ "SDN" "SDN"
    rfl (Or.inl rfl) (by decide) rfl rfl rfl rfl rfl rfl rfl (by omega)
